import Mathlib

/-!
Verification of the nested-pagination traversal and incremental-merge engine
of the organization-audit collector (src/index.js), against its
natural-language specification.

The engine is embedded shallowly: each JavaScript function becomes a Lean
function of the same name; the mutable per-organization accumulator
(this.result[organization]) becomes an explicitly threaded
Option OrganizationData; the unbounded recursion of collectData and of the
retry in requestOrganizationData becomes structural recursion on a fuel
parameter, with fuel exhaustion reported as a distinct outcome.  Cursors are
opaque tokens in the source (never inspected, only stored and passed back),
so they are modelled as Option Nat, with none standing for the JavaScript
null that denotes the start of a collection.  Every function also returns
the trace of Gateway calls it issued, so that theorems can speak about the
call parameters the engine chooses.
-/

namespace OrgAudit

/-- Opaque pagination token; none models the JavaScript null cursor. -/
abbrev Cursor := Option Nat

/-- Page-info pair returned by the Gateway for each paginated collection. -/
structure PageInfo where
  hasNextPage : Bool
  endCursor : Cursor
deriving DecidableEq, Repr

/-- Collaborator node: display name (nullable in the API) and login. -/
structure CollaboratorNode where
  name : Option String
  login : String
deriving DecidableEq, Repr

/-- Collaborator edge: node plus the permission attached to the edge. -/
structure CollaboratorEdge where
  node : CollaboratorNode
  permission : String
deriving DecidableEq, Repr

/-- Collaborator connection of one repository: one page of edges. -/
structure CollaboratorConnection where
  edges : List CollaboratorEdge
  pageInfo : PageInfo
deriving DecidableEq, Repr

/-- Repository node.  previousCursor is absent in Gateway responses and is
set by the engine (line 220 of src/index.js); absent models as none. -/
structure RepositoryNode where
  name : String
  collaborators : CollaboratorConnection
  previousCursor : Cursor
deriving DecidableEq, Repr

/-- Repository connection: one page of repository nodes. -/
structure RepositoryConnection where
  nodes : List RepositoryNode
  pageInfo : PageInfo
deriving DecidableEq, Repr

/-- Payload of a successful organization query. -/
structure OrganizationData where
  repositories : RepositoryConnection
deriving DecidableEq, Repr

/-- Error thrown by the Gateway: message plus the partial response data
(error.data.organization in the source), which may be absent. -/
structure GatewayError where
  message : String
  data : Option OrganizationData
deriving DecidableEq, Repr

/-- Result of one Gateway call. -/
inductive GatewayResult where
  | ok (organization : OrganizationData)
  | err (e : GatewayError)
deriving DecidableEq, Repr

/-- The Query Gateway: a parameterized query taking the collaborator cursor
and the repository cursor (the organization login is fixed per gateway). -/
abbrev Gateway := Cursor → Cursor → GatewayResult

/-- Constant from line 16 of src/index.js. -/
def ERROR_MESSAGE_ARCHIVED_REPO : String :=
  "Must have push access to view repository collaborators."

/-- Outcome of requestOrganizationData.  ok carries the response data,
noData models the JavaScript return null for unclassified errors, thrown
models a TypeError escaping the catch block (classified error whose partial
data is missing or has no repository node), fuelOut is the modelling
artifact for exhausted fuel. -/
inductive ReqOutcome where
  | ok (data : OrganizationData)
  | noData
  | thrown
  | fuelOut
deriving DecidableEq, Repr

/-- Embedding of requestOrganizationData (src/index.js lines 116 to 134).
Returns the outcome together with the list of Gateway calls issued, each as
a pair (collaboratorsCursor, repositoriesCursor).  On the classified
archived-repository error the call is re-issued with a reset collaborator
cursor and the repository end-cursor taken from the partial error data; on
any other error the function returns noData without retrying. -/
def requestOrganizationData (gw : Gateway) :
    Nat → Cursor → Cursor → ReqOutcome × List (Cursor × Cursor)
  | 0, _, _ => (.fuelOut, [])
  | fuel + 1, collaboratorsCursor, repositoriesCursor =>
    match gw collaboratorsCursor repositoriesCursor with
    | .ok data => (.ok data, [(collaboratorsCursor, repositoriesCursor)])
    | .err e =>
      if e.message = ERROR_MESSAGE_ARCHIVED_REPO then
        match e.data with
        | some pd =>
          match pd.repositories.nodes with
          | [] => (.thrown, [(collaboratorsCursor, repositoriesCursor)])
          | _ :: _ =>
            let retried :=
              requestOrganizationData gw fuel none pd.repositories.pageInfo.endCursor
            (retried.1, (collaboratorsCursor, repositoriesCursor) :: retried.2)
        | none => (.thrown, [(collaboratorsCursor, repositoriesCursor)])
      else (.noData, [(collaboratorsCursor, repositoriesCursor)])

/-- How a collectData invocation ended: returned models a normal JavaScript
return, threw a propagated exception, outOfFuel the modelling artifact. -/
inductive ExitKind where
  | returned
  | threw
  | outOfFuel
deriving DecidableEq, Repr

/-- Result of collectData: final per-organization accumulator (the value of
this.result[organization] when control left the function), how the call
ended, and the trace of Gateway calls issued. -/
structure CollectResult where
  state : Option OrganizationData
  exit : ExitKind
  calls : List (Cursor × Cursor)
deriving DecidableEq, Repr

/-- Embedding of collectData (src/index.js lines 198 to 254) for one
organization.  The parameter st threads this.result[organization].
Faithful points worth noting: on the first call (st = none) the variable
result aliases the response data, so the merge branch appends the page
edges to themselves; repositoriesInResult is the sequence length taken
before a possible append; the comma operator on line 231 makes the
condition there just repositoriesInResult === 1; the merge branch replaces
only the edges of the last entry, leaving its stored pageInfo untouched. -/
def collectData (gw : Gateway) :
    Nat → Option OrganizationData → Cursor → Cursor → CollectResult
  | 0, st, _, _ => ⟨st, .outOfFuel, []⟩
  | fuel + 1, st, collaboratorsCursor, repositoriesCursor =>
    let req := requestOrganizationData gw (fuel + 1) collaboratorsCursor repositoriesCursor
    match req.1 with
    | .fuelOut => ⟨st, .outOfFuel, req.2⟩
    | .thrown => ⟨st, .threw, req.2⟩
    | .noData => ⟨st, .returned, req.2⟩
    | .ok data =>
      match data.repositories.nodes with
      | [] => ⟨st, .returned, req.2⟩
      | currentRepository :: _ =>
        let repositoriesPage := data.repositories
        let collaboratorsPage := currentRepository.collaborators
        let result := st.getD data
        let repositoriesInResult := result.repositories.nodes.length
        match result.repositories.nodes.getLast? with
        | none => ⟨st, .threw, req.2⟩
        | some lastRepositoryInResult =>
          let result :=
            if currentRepository.name = lastRepositoryInResult.name then
              { result with repositories := { result.repositories with nodes :=
                  result.repositories.nodes.dropLast ++
                  [{ lastRepositoryInResult with collaborators :=
                      { lastRepositoryInResult.collaborators with edges :=
                          lastRepositoryInResult.collaborators.edges ++
                          collaboratorsPage.edges } }] } }
            else
              { result with repositories := { result.repositories with nodes :=
                  result.repositories.nodes.dropLast ++
                  [{ lastRepositoryInResult with previousCursor := repositoriesCursor },
                   currentRepository] } }
          let st2 : Option OrganizationData := some result
          if collaboratorsPage.pageInfo.hasNextPage then
            if repositoriesInResult = 1 then
              let rest := collectData gw fuel st2 collaboratorsPage.pageInfo.endCursor none
              ⟨rest.state, rest.exit, req.2 ++ rest.calls⟩
            else
              match result.repositories.nodes.get? (repositoriesInResult - 2) with
              | none => ⟨st2, .threw, req.2⟩
              | some entry =>
                let rest := collectData gw fuel st2 collaboratorsPage.pageInfo.endCursor
                  entry.previousCursor
                ⟨rest.state, rest.exit, req.2 ++ rest.calls⟩
          else if repositoriesPage.pageInfo.hasNextPage then
            let rest := collectData gw fuel st2 none repositoriesPage.pageInfo.endCursor
            ⟨rest.state, rest.exit, req.2 ++ rest.calls⟩
          else
            ⟨st2, .returned, req.2⟩

/-- Traversal of one organization from scratch: startCollection sets
this.result[login] = null and then invokes collectData with no cursors. -/
def collectTop (gw : Gateway) (fuel : Nat) : CollectResult :=
  collectData gw fuel none none none

/-- Ground-truth description of one repository for the model Gateway. -/
structure RepoSpec where
  name : String
  collabs : List CollaboratorEdge
deriving DecidableEq, Repr

/-- One page of a list: size elements starting at start. -/
def pageSlice (l : List CollaboratorEdge) (start size : Nat) : List CollaboratorEdge :=
  (l.drop start).take size

/-- Well-behaved model of the GitHub Gateway over a finite repository list:
cursors are positional (after cursor some k the collection resumes at index
k, none starts at 0), each call returns at most one repository node (the
query pages one repository at a time), end-cursors advance monotonically,
and each hasNextPage flag reports whether elements remain.  As in the real
API a collaborator cursor applies positionally to whichever repository the
repository cursor selects. -/
def mkGateway (repos : List RepoSpec) (pageSize : Nat) : Gateway := fun c r =>
  let ri := r.getD 0
  match (repos.drop ri).head? with
  | none =>
    .ok { repositories :=
      { nodes := [], pageInfo := { hasNextPage := false, endCursor := none } } }
  | some spec =>
    let c0 := c.getD 0
    .ok { repositories :=
      { nodes := [{ name := spec.name,
                    collaborators :=
                      { edges := pageSlice spec.collabs c0 pageSize,
                        pageInfo :=
                          { hasNextPage := decide (c0 + pageSize < spec.collabs.length),
                            endCursor := some (c0 + pageSize) } },
                    previousCursor := none }],
        pageInfo := { hasNextPage := decide (ri + 1 < repos.length),
                      endCursor := some (ri + 1) } } }

/-- Organization login as the source holds it: the configuration value may
be absent (undefined), in which case collection still runs for it. -/
abbrev OrgLogin := Option String

/-- JavaScript object keys are strings; an undefined login is coerced to
the string key undefined when used to index this.result. -/
def keyString : OrgLogin → String
  | some s => s
  | none => "undefined"

/-- CollectionState: the this.result mapping, organization key to
accumulator or null, in insertion order. -/
abbrev CollectionState := List (OrgLogin × Option OrganizationData)

/-- JavaScript object assignment semantics for this.result: an existing key
keeps its position and gets the new value, a fresh key is appended. -/
def setKey : CollectionState → OrgLogin → Option OrganizationData → CollectionState
  | [], k, v => [(k, v)]
  | (k2, v2) :: rest, k, v =>
    if k2 = k then (k, v) :: rest else (k2, v2) :: setKey rest k v

/-- Flat record pushed by normalizeResult: the six cells
enterprise, organization, repo, user, login, permission, each possibly
undefined. -/
abbrev Row := List (Option String)

/-- Embedding of normalizeResult (src/index.js lines 173 to 196): walks the
collection state in insertion order and appends one row per collaborator
edge onto the persistent normalizedData array, which it never clears.
Organizations whose accumulator is null are skipped. -/
def normalizeResult (enterprise : Option String) (normalizedData : List Row)
    (result : CollectionState) : List Row :=
  result.foldl (fun nd p =>
    match p.2 with
    | none => nd
    | some a =>
      a.repositories.nodes.foldl (fun nd repository =>
        repository.collaborators.edges.foldl (fun nd collaborator =>
          nd ++ [[enterprise, some (keyString p.1), some repository.name,
                  collaborator.node.name, some collaborator.node.login,
                  some collaborator.permission]]) nd) nd) normalizedData

/-- Modelled from the spec: the Result Normalizer contract.  For every
organization with a non-null accumulator, every repository in sequence
order, every collaborator edge in sequence order, exactly one flat record,
with organizations in insertion order; null accumulators contribute zero
records.  Compared against normalizeResult, which is translated from the
source. -/
def flattenedRecords (enterprise : Option String) (result : CollectionState) : List Row :=
  result.flatMap fun p =>
    match p.2 with
    | none => []
    | some a =>
      a.repositories.nodes.flatMap fun repository =>
        repository.collaborators.edges.map fun collaborator =>
          [enterprise, some (keyString p.1), some repository.name,
           collaborator.node.name, some collaborator.node.login,
           some collaborator.permission]

/-- Line separator used by the export; os.EOL of the host platform. -/
def osEOL : String := "\n"

/-- JavaScript string coercion of one record cell: undefined appended to a
string renders as the text undefined. -/
def csvCell : Option String → String
  | some s => s
  | none => "undefined"

/-- Embedding of JSONtoCSV (src/index.js lines 20 to 33): a header row of
the six fixed keys, then for each record its six cells joined by commas,
each row terminated by the line separator. -/
def JSONtoCSV (json : List Row) : String :=
  let keys := ["enterprise", "organization", "repo", "user", "login", "permission"]
  let headerLine := String.intercalate "," keys ++ osEOL
  json.foldl (fun csv record =>
    csv ++
      (List.range keys.length).foldl (fun line i =>
        line ++ csvCell (record.getD i none) ++
          (if i ≠ keys.length - 1 then "," else "")) "" ++ osEOL) headerLine

/-- JSON.stringify escaping of a single character, covering the characters
the export can produce. -/
def jsonEscapeChar (c : Char) : String :=
  if c = '"' then "\\\""
  else if c = '\\' then "\\\\"
  else if c = '\n' then "\\n"
  else if c = '\r' then "\\r"
  else if c = '\t' then "\\t"
  else String.singleton c

/-- JSON.stringify of a string value: quoted and escaped. -/
def jsonStringifyString (s : String) : String :=
  "\"" ++ String.join (s.toList.map jsonEscapeChar) ++ "\""

/-- JSON.stringify of one cell inside an array: undefined serializes as
null there. -/
def jsonStringifyCell : Option String → String
  | none => "null"
  | some s => jsonStringifyString s

/-- JSON.stringify of one flat record. -/
def jsonStringifyRow (r : Row) : String :=
  "[" ++ String.intercalate "," (r.map jsonStringifyCell) ++ "]"

/-- JSON.stringify of the normalized record array. -/
def jsonStringifyRows (rs : List Row) : String :=
  "[" ++ String.intercalate "," (rs.map jsonStringifyRow) ++ "]"

/-- Contents of the two files endCollection writes per run. -/
structure ExportFiles where
  rawDataJson : String
  rawDataCsv : String
deriving DecidableEq, Repr

/-- Embedding of endCollection (src/index.js lines 160 to 171): run the
normalizer into the persistent normalizedData, then write the structured
file as JSON.stringify of the record array and the tabular file as
JSON.stringify of the CSV text.  Returns the normalizedData after the call
together with both file contents. -/
def endCollection (enterprise : Option String) (normalizedData : List Row)
    (result : CollectionState) : List Row × ExportFiles :=
  let nd := normalizeResult enterprise normalizedData result
  let json := nd
  let csv := JSONtoCSV json
  (nd, { rawDataJson := jsonStringifyRows json, rawDataCsv := jsonStringifyString csv })

/-- How the organization loop of startCollection ended: normally, by a
propagated exception (caught at the loop boundary, after which the run
still exports), or by fuel exhaustion (modelling artifact). -/
inductive LoopExit where
  | normal
  | threw
  | outOfFuel
deriving DecidableEq, Repr

/-- Embedding of the organization loop of startCollection (src/index.js
lines 142 to 151): for each login, set this.result[login] = null, run
collectData, store its final accumulator; a propagated exception stops the
loop (the surrounding try-catch), every returned collectData moves on to
the next organization. -/
def runOrgs (gws : OrgLogin → Gateway) (fuel : Nat) :
    List OrgLogin → CollectionState → CollectionState × LoopExit
  | [], st => (st, .normal)
  | login :: rest, st =>
    let st1 := setKey st login none
    let r := collectData (gws login) fuel none none none
    let st2 := setKey st1 login r.state
    match r.exit with
    | .threw => (st2, .threw)
    | .outOfFuel => (st2, .outOfFuel)
    | .returned => runOrgs gws fuel rest st2

/-- Embedding of startCollection followed by endCollection for the
single-organization mode (src/index.js lines 136 to 158): run the loop,
then export in both the normal and the caught-exception path.  Fuel
exhaustion of the model returns none. -/
def startCollection (gws : OrgLogin → Gateway) (fuel : Nat) (orgs : List OrgLogin) :
    Option (List Row × ExportFiles) :=
  let r := runOrgs gws fuel orgs []
  match r.2 with
  | .outOfFuel => none
  | _ => some (endCollection none [] r.1)

/-- Embedding of validateInput (src/index.js lines 49 to 54): the run is
failed only when organization and enterprise are both provided. -/
def validateInputFails (organization enterprise : Option String) : Bool :=
  organization.isSome && enterprise.isSome

/-- Fields of the collector relevant to construction. -/
structure CollectorInit where
  organizations : List OrgLogin
  enterprise : Option String
  result : CollectionState
  normalizedData : List Row
deriving DecidableEq, Repr

/-- Embedding of the CollectUserData constructor (src/index.js lines 36 to
47): after validateInput passes, the organization list is the single entry
holding the organization input, even when that input is absent. -/
def mkCollectUserData (organization enterprise : Option String) : Option CollectorInit :=
  if validateInputFails organization enterprise then none
  else some { organizations := [organization], enterprise := enterprise,
              result := [], normalizedData := [] }

/-- Collaborator alice with admin permission, from the spec scenario. -/
def aliceE : CollaboratorEdge := ⟨⟨some "Alice", "alice"⟩, "admin"⟩

/-- Collaborator bob with read permission, from the spec scenario. -/
def bobE : CollaboratorEdge := ⟨⟨some "Bob", "bob"⟩, "read"⟩

/-- Collaborator carol with write permission, from the spec scenario. -/
def carolE : CollaboratorEdge := ⟨⟨some "Carol", "carol"⟩, "write"⟩

/-- Second collaborator of the second repository in the loop scenario. -/
def davidE : CollaboratorEdge := ⟨⟨some "David", "david"⟩, "read"⟩

/-- Ground truth of the spec scenario for organization acme: repository r1
with collaborators alice then bob across two collaborator pages of size
one, repository r2 with carol in one page. -/
def acmeRepos : List RepoSpec := [⟨"r1", [aliceE, bobE]⟩, ⟨"r2", [carolE]⟩]

/-- Well-behaved Gateway for the acme scenario, collaborator pages of size
one. -/
def acmeGw : Gateway := mkGateway acmeRepos 1

/-- Ground truth of the loop scenario: r1 with a single collaborator, r2
with two collaborators across two collaborator pages of size one. -/
def loopRepos : List RepoSpec := [⟨"r1", [aliceE]⟩, ⟨"r2", [carolE, davidE]⟩]

/-- Well-behaved Gateway for the loop scenario. -/
def loopGw : Gateway := mkGateway loopRepos 1

/-- Flat record for alice in r1 of acme (organization mode: enterprise
undefined). -/
def aliceRow : Row :=
  [none, some "acme", some "r1", some "Alice", some "alice", some "admin"]

/-- Flat record for bob in r1 of acme. -/
def bobRow : Row :=
  [none, some "acme", some "r1", some "Bob", some "bob", some "read"]

/-- Flat record for carol in r2 of acme. -/
def carolRow : Row :=
  [none, some "acme", some "r2", some "Carol", some "carol", some "write"]

/-- Rows the code actually accumulates for the acme scenario. -/
def acmeRows : List Row := [aliceRow, aliceRow, bobRow, carolRow]

/-- Full collaborator list of the repository with the given name in the
ground truth. -/
def fullCollaborators (repos : List RepoSpec) (name : String) : List CollaboratorEdge :=
  match repos.find? (fun s => s.name = name) with
  | some s => s.collabs
  | none => []

/-- A repository accumulator entry counts as fully drained when it already
holds every collaborator of its repository in the ground truth. -/
def drainedB (repos : List RepoSpec) (e : RepositoryNode) : Bool :=
  (fullCollaborators repos e.name).all (fun c => decide (c ∈ e.collaborators.edges))

/-- C1: the claim states that for an error-free traversal each repository
accumulates exactly the in-order concatenation of its collaborator pages,
and that the acme scenario flattens to exactly three rows.  The code
violates this: on the first call for an organization the local variable
result is the response itself, so the merge branch appends the first page
of the first repository to itself.  Evaluating the code on the acme
scenario: r1 accumulates alice, alice, bob (three edges, though the pages
returned for r1 carry one edge each, summing to two), and the flattened
output is four rows with the alice row duplicated, not the three rows the
claim states. -/
theorem c1_first_page_duplicated :
    (collectData acmeGw 10 none none none).exit = .returned ∧
    ((collectData acmeGw 10 none none none).state.map fun a =>
        a.repositories.nodes.map fun n => (n.name, n.collaborators.edges)) =
      some [("r1", [aliceE, aliceE, bobE]), ("r2", [carolE])] ∧
    normalizeResult none [] [(some "acme", (collectData acmeGw 10 none none none).state)] =
      [aliceRow, aliceRow, bobRow, carolRow] ∧
    normalizeResult none [] [(some "acme", (collectData acmeGw 10 none none none).state)] ≠
      [aliceRow, bobRow, carolRow] := by
  refine ⟨rfl, by decide, by decide, by decide⟩

/-- C2: the claim states that whenever a merged page leaves the current
repository with a further collaborator page, the next call reuses the
repository cursor positioning of the current repository: null only when the
current repository is the very first one, otherwise the
priorRepositoryCursor of the entry immediately preceding the last, in both
the continuation and the new-repository case.  The code violates the
new-repository case: in the loop scenario the second call appends r2, whose
collaborator page has a next page; the entry immediately preceding the last
(r1) stores priorRepositoryCursor some 1, the cursor that makes the Gateway
return r2 again, yet the third call is issued with repository cursor none,
because line 231 tests the sequence length taken before the append.  So the
Gateway returns r1 again, not the same repository. -/
theorem c2_new_repo_cursor_off :
    ((collectData loopGw 2 none none none).state.map fun a =>
        a.repositories.nodes.map fun n => (n.name, n.previousCursor)) =
      some [("r1", some 1), ("r2", none)] ∧
    ((collectData loopGw 2 none none none).state.map fun a =>
        a.repositories.nodes.map fun n => n.collaborators.pageInfo.hasNextPage) =
      some [false, true] ∧
    (collectData loopGw 3 none none none).calls =
      [(none, none), (none, some 1), (some 1, none)] ∧
    ((some 1 : Cursor), (some 1 : Cursor)) ≠ ((some 1 : Cursor), (none : Cursor)) := by
  refine ⟨by decide, by decide, by decide, by decide⟩

/-- C5: the claim states the repository-sequence invariant: an accumulator
entry is appended exactly once, precisely when the page carries a new
repository name, and at every point at most one entry, always the last, is
not yet fully drained.  Evaluating the code on the loop scenario after four
merged pages: the sequence holds two distinct entries named r2 (appended
twice), and three entries are not fully drained, two of them not in last
position, because the wrong repository cursor of the new-repository case
makes the engine revisit and re-append repositories. -/
theorem c5_invariant_violated :
    ((collectData loopGw 4 none none none).state.map fun a =>
        a.repositories.nodes.map fun n => n.name) =
      some ["r1", "r2", "r1", "r2"] ∧
    ((collectData loopGw 4 none none none).state.map fun a =>
        a.repositories.nodes.map fun n => drainedB loopRepos n) =
      some [true, false, false, false] := by
  refine ⟨by decide, by decide⟩

/-- Splits a character list at every occurrence of the separator, keeping
empty segments, mirroring how a text file divides into lines. -/
def splitOnChar (sep : Char) : List Char → List (List Char)
  | [] => [[]]
  | ch :: rest =>
    if ch = sep then [] :: splitOnChar sep rest
    else
      match splitOnChar sep rest with
      | [] => [[ch]]
      | l :: ls => (ch :: l) :: ls

/-- Lines of a text, split at the newline character. -/
def textLines (s : String) : List String :=
  (splitOnChar '\n' s.toList).map (fun l => ⟨l⟩)

/-- Text up to the first newline. -/
def firstLine (s : String) : String :=
  ⟨s.toList.takeWhile (fun ch => ch ≠ '\n')⟩

set_option maxRecDepth 8000 in
/-- C8: the claim states that each run writes two export files and that the
tabular file contains the comma-separated layout whose first line is the
fixed header row.  The run does write two files, and JSONtoCSV does produce
that layout, but endCollection writes JSON.stringify of the CSV text into
the tabular file (line 166), so the file content is a quoted JSON string
with escaped newlines whose first line is not the header row. -/
theorem c8_csv_file_json_wrapped :
    startCollection (fun _ => acmeGw) 10 [some "acme"] =
      some (acmeRows, { rawDataJson := jsonStringifyRows acmeRows,
                        rawDataCsv := jsonStringifyString (JSONtoCSV acmeRows) }) ∧
    textLines (JSONtoCSV acmeRows) =
      ["enterprise,organization,repo,user,login,permission",
       "undefined,acme,r1,Alice,alice,admin",
       "undefined,acme,r1,Alice,alice,admin",
       "undefined,acme,r1,Bob,bob,read",
       "undefined,acme,r2,Carol,carol,write", ""] ∧
    firstLine (JSONtoCSV acmeRows) =
      "enterprise,organization,repo,user,login,permission" ∧
    firstLine (jsonStringifyString (JSONtoCSV acmeRows)) ≠
      "enterprise,organization,repo,user,login,permission" := by
  refine ⟨by decide, by decide, by decide, by decide⟩

/-- Folding a push-one-element body over a list appends the mapped list. -/
theorem foldl_flat_of {α β : Type} (g : List β → α → List β) (h : α → List β)
    (hg : ∀ nd x, g nd x = nd ++ h x) :
    ∀ (l : List α) (nd : List β), l.foldl g nd = nd ++ l.flatMap h := by
  intro l
  induction l with
  | nil => intro nd; simp
  | cons x xs ih =>
    intro nd
    rw [List.foldl_cons, hg, List.flatMap_cons, ih, List.append_assoc]

/-- Rows contributed by one repository, in edge order. -/
def repoRows (enterprise : Option String) (login : OrgLogin)
    (repository : RepositoryNode) : List Row :=
  repository.collaborators.edges.map fun collaborator =>
    [enterprise, some (keyString login), some repository.name,
     collaborator.node.name, some collaborator.node.login,
     some collaborator.permission]

/-- Rows contributed by one collection-state entry, in nesting order. -/
def entryRows (enterprise : Option String) (p : OrgLogin × Option OrganizationData) :
    List Row :=
  match p.2 with
  | none => []
  | some a => a.repositories.nodes.flatMap (repoRows enterprise p.1)

/-- A flatMap of singletons is a map. -/
theorem flatMap_single {α β : Type} (f : α → β) :
    ∀ l : List α, l.flatMap (fun x => [f x]) = l.map f := by
  intro l
  induction l with
  | nil => rfl
  | cons x xs ih => simp [List.flatMap_cons, ih]

/-- The imperative normalizer equals appending the nested flattening of the
state onto the incoming normalizedData array. -/
theorem normalizeResult_eq (enterprise : Option String) (normalizedData : List Row)
    (result : CollectionState) :
    normalizeResult enterprise normalizedData result =
      normalizedData ++ flattenedRecords enterprise result := by
  have hrepo : ∀ (login : OrgLogin) (repository : RepositoryNode) (nd : List Row),
      List.foldl (fun nd collaborator =>
        nd ++ [[enterprise, some (keyString login), some repository.name,
                collaborator.node.name, some collaborator.node.login,
                some collaborator.permission]]) nd repository.collaborators.edges
        = nd ++ repoRows enterprise login repository := by
    intro login repository nd
    refine (foldl_flat_of _ (fun collaborator : CollaboratorEdge =>
        [[enterprise, some (keyString login), some repository.name,
          collaborator.node.name, some collaborator.node.login,
          some collaborator.permission]]) (fun _ _ => rfl) _ _).trans ?_
    rw [flatMap_single (fun collaborator : CollaboratorEdge =>
        [enterprise, some (keyString login), some repository.name,
         collaborator.node.name, some collaborator.node.login,
         some collaborator.permission]) repository.collaborators.edges]
    rfl
  have hentry : ∀ (p : OrgLogin × Option OrganizationData) (nd : List Row),
      (match p.2 with
       | none => nd
       | some a =>
         List.foldl (fun nd repository =>
           List.foldl (fun nd collaborator =>
             nd ++ [[enterprise, some (keyString p.1), some repository.name,
                     collaborator.node.name, some collaborator.node.login,
                     some collaborator.permission]]) nd repository.collaborators.edges)
           nd a.repositories.nodes) = nd ++ entryRows enterprise p := by
    intro p nd
    match hp : p.2 with
    | none => simp [entryRows, hp]
    | some a =>
      refine (foldl_flat_of _ (repoRows enterprise p.1)
        (fun nd repository => hrepo p.1 repository nd) _ _).trans ?_
      simp [entryRows, hp]
  have hmain : normalizeResult enterprise normalizedData result =
      normalizedData ++ result.flatMap (entryRows enterprise) := by
    unfold normalizeResult
    exact foldl_flat_of _ (entryRows enterprise) (fun nd p => hentry p nd) result normalizedData
  rw [hmain]
  rfl

/-- C6: for every frozen collection state, the normalizer emits exactly one
flat record per collaborator edge, ordered by organization insertion order,
then repository sequence order, then collaborator sequence order, and a
null accumulator contributes zero records without error.  Proved by showing
the imperative normalizeResult equal to the nested flattening
flattenedRecords, which realizes precisely that nesting order, and by the
explicit null-entry clause. -/
theorem c6_normalize_order (enterprise : Option String) (result : CollectionState) :
    normalizeResult enterprise [] result = flattenedRecords enterprise result ∧
    (∀ (login : OrgLogin) (rest : CollectionState),
      normalizeResult enterprise [] ((login, none) :: rest) =
        normalizeResult enterprise [] rest) := by
  constructor
  · rw [normalizeResult_eq]
    simp
  · intro login rest
    rw [normalizeResult_eq, normalizeResult_eq]
    simp [flattenedRecords]

/-- C10: normalizeResult appends onto the persistent normalizedData array
without clearing it, so running it twice in succession over the same state
yields the single-invocation record list concatenated with itself; this
matters because endCollection runs again when the first export attempt
throws (the catch block of startCollection calls endCollection a second
time), duplicating every record. -/
theorem c10_normalize_not_idempotent (enterprise : Option String)
    (result : CollectionState) :
    normalizeResult enterprise (normalizeResult enterprise [] result) result =
      normalizeResult enterprise [] result ++ normalizeResult enterprise [] result := by
  rw [normalizeResult_eq, normalizeResult_eq]
  simp

/-- A successful Gateway call is returned as is, after exactly one call. -/
theorem requestOrganizationData_ok (gw : Gateway) (fuel : Nat) (c r : Cursor)
    (d : OrganizationData) (h : gw c r = .ok d) :
    requestOrganizationData gw (fuel + 1) c r = (.ok d, [(c, r)]) := by
  simp [requestOrganizationData, h]

/-- C3: on the classified archived-repository error, requestOrganizationData
merges nothing from the failed call and behaves exactly as one fresh
re-issued call with the collaborator cursor reset to null and the
repository cursor taken from the end-cursor in the partial error data, the
failed call contributing only its entry in the call trace, so the skipped
repository contributes no collaborators; every other Gateway failure
returns the no-data outcome after that single call, without any retry.  The
stable classification message is the ERROR_MESSAGE_ARCHIVED_REPO constant
the source compares against. -/
theorem c3_forced_skip (gw : Gateway) (fuel : Nat) (c r : Cursor) (e : GatewayError)
    (h : gw c r = .err e) :
    (e.message = ERROR_MESSAGE_ARCHIVED_REPO →
      ∀ (pd : OrganizationData) (n : RepositoryNode) (ns : List RepositoryNode),
        e.data = some pd → pd.repositories.nodes = n :: ns →
        requestOrganizationData gw (fuel + 1) c r =
          ((requestOrganizationData gw fuel none pd.repositories.pageInfo.endCursor).1,
           (c, r) :: (requestOrganizationData gw fuel none pd.repositories.pageInfo.endCursor).2)) ∧
    (e.message ≠ ERROR_MESSAGE_ARCHIVED_REPO →
      requestOrganizationData gw (fuel + 1) c r = (.noData, [(c, r)])) := by
  constructor
  · intro hm pd n ns hd hn
    simp [requestOrganizationData, h, hm, hd, hn]
  · intro hm
    simp [requestOrganizationData, h, hm]

/-- Repository node standing for the archived repository that triggers the
classified error. -/
def archivedNode : RepositoryNode := ⟨"archived1", ⟨[], ⟨false, none⟩⟩, none⟩

/-- Partial data attached to the classified error: the page that contained
the archived repository, with end-cursor some 5. -/
def archivedPartial : OrganizationData := ⟨⟨[archivedNode], ⟨true, some 5⟩⟩⟩

/-- The classified Gateway error with partial data attached. -/
def archivedErr : GatewayError := ⟨ERROR_MESSAGE_ARCHIVED_REPO, some archivedPartial⟩

/-- Data returned after skipping the archived repository. -/
def afterSkipData : OrganizationData :=
  ⟨⟨[⟨"r3", ⟨[davidE], ⟨false, some 1⟩⟩, none⟩], ⟨false, some 6⟩⟩⟩

/-- Gateway that throws the classified error until called at the
repository cursor taken from the partial error data. -/
def archivedGw : Gateway := fun _ r =>
  if r = some 5 then .ok afterSkipData else .err archivedErr

/-- Witness for c3_forced_skip at the archivedGw scenario: the failed first
call is followed by exactly one re-issued call at the reset collaborator
cursor and the partial-data end-cursor, returning the post-skip data. -/
theorem c3_forced_skip_witness :
    requestOrganizationData archivedGw 2 none none =
      (.ok afterSkipData, [(none, none), (none, some 5)]) := by
  have h := (c3_forced_skip archivedGw 1 none none archivedErr rfl).1 rfl
    archivedPartial archivedNode [] rfl rfl
  rw [h]
  rfl

/-- The trace of requestOrganizationData always starts with the call at the
cursors it was given. -/
theorem requestOrganizationData_calls_head (gw : Gateway) (fuel : Nat) (c r : Cursor) :
    ((requestOrganizationData gw (fuel + 1) c r).2).head? = some (c, r) := by
  rcases hgw : gw c r with d | e
  · simp [requestOrganizationData, hgw]
  · by_cases hm : e.message = ERROR_MESSAGE_ARCHIVED_REPO
    · rcases hd : e.data with _ | pd
      · simp [requestOrganizationData, hgw, hm, hd]
      · rcases hn : pd.repositories.nodes with _ | ⟨n, ns⟩
        · simp [requestOrganizationData, hgw, hm, hd, hn]
        · simp [requestOrganizationData, hgw, hm, hd, hn]
    · simp [requestOrganizationData, hgw, hm]

/-- The trace of collectData always starts with the call at the cursors it
was given: the engine reaches the network. -/
theorem collectData_calls_head (gw : Gateway) (fuel : Nat)
    (st : Option OrganizationData) (c r : Cursor) :
    ((collectData gw (fuel + 1) st c r).calls).head? = some (c, r) := by
  have hreq := requestOrganizationData_calls_head gw fuel c r
  rcases hq : requestOrganizationData gw (fuel + 1) c r with ⟨o, calls⟩
  rw [hq] at hreq
  simp only at hreq
  rcases calls with _ | ⟨p, tail⟩
  · simp at hreq
  · simp only [List.head?_cons, Option.some.injEq] at hreq
    subst hreq
    rcases o with d | _ | _ | _
    · simp only [collectData, hq]
      rcases hn : d.repositories.nodes with _ | ⟨cur, rest⟩
      · simp [hn]
      · simp only [hn]
        repeat' split
        all_goals simp
    · simp [collectData, hq]
    · simp [collectData, hq]
    · simp [collectData, hq]

/-- C9: when neither an organization login nor an enterprise login is
provided, validateInput does not fail, the collector is constructed with a
single organization entry whose login is absent, and collection proceeds
for that absent login: the first Gateway call of its traversal is issued
(with both cursors null) instead of any configuration error being reported
before a network call. -/
theorem c9_missing_inputs_accepted :
    validateInputFails none none = false ∧
    mkCollectUserData none none =
      some { organizations := [none], enterprise := none,
             result := [], normalizedData := [] } ∧
    (∀ (gw : Gateway) (fuel : Nat),
      ((collectData gw (fuel + 1) none none none).calls).head? =
        some ((none : Cursor), (none : Cursor))) := by
  refine ⟨rfl, rfl, ?_⟩
  intro gw fuel
  exact collectData_calls_head gw fuel none none none

/-- JavaScript object keys of a collection state, in insertion order. -/
def stateKeys (st : CollectionState) : List OrgLogin := st.map Prod.fst

/-- Keys of a cons state. -/
theorem stateKeys_cons (p : OrgLogin × Option OrganizationData) (rest : CollectionState) :
    stateKeys (p :: rest) = p.1 :: stateKeys rest := rfl

/-- Setting a fresh key appends the pair at the end. -/
theorem setKey_fresh (l : OrgLogin) (v : Option OrganizationData) :
    ∀ st : CollectionState, l ∉ stateKeys st → setKey st l v = st ++ [(l, v)] := by
  intro st
  induction st with
  | nil => intro _; rfl
  | cons p rest ih =>
    intro h
    rw [stateKeys_cons, List.mem_cons] at h
    push_neg at h
    have hne : ¬ p.1 = l := fun he => h.1 he.symm
    simp only [setKey, if_neg hne]
    rw [ih h.2]
    simp

/-- Overwriting a key just set overwrites in place. -/
theorem setKey_setKey (l : OrgLogin) (u v : Option OrganizationData) :
    ∀ st : CollectionState, setKey (setKey st l u) l v = setKey st l v := by
  intro st
  induction st with
  | nil => simp [setKey]
  | cons p rest ih =>
    by_cases h : p.1 = l
    · simp [setKey, h]
    · simp [setKey, h, ih]

/-- When every organization in the (duplicate-free) list returns normally,
the loop visits each organization in order, each entry of the final state
being the accumulator its own traversal produced. -/
theorem runOrgs_complete (gws : OrgLogin → Gateway) (fuel : Nat) :
    ∀ (orgs : List OrgLogin) (st : CollectionState), orgs.Nodup →
      (∀ l ∈ orgs, l ∉ stateKeys st) →
      (∀ l ∈ orgs, (collectTop (gws l) fuel).exit = .returned) →
      runOrgs gws fuel orgs st =
        (st ++ orgs.map (fun l => (l, (collectTop (gws l) fuel).state)), .normal) := by
  intro orgs
  induction orgs with
  | nil => intro st _ _ _; simp [runOrgs]
  | cons l rest ih =>
    intro st hnd hfresh hret
    have hret1 : (collectData (gws l) fuel none none none).exit = .returned :=
      hret l (List.mem_cons_self l rest)
    have hfresh1 : l ∉ stateKeys st := hfresh l (List.mem_cons_self l rest)
    have hstep : runOrgs gws fuel (l :: rest) st =
        runOrgs gws fuel rest (st ++ [(l, (collectTop (gws l) fuel).state)]) := by
      simp only [runOrgs, setKey_setKey]
      rw [setKey_fresh l _ st hfresh1, hret1]
      rfl
    rw [hstep]
    have hfr2 : ∀ l2 ∈ rest, l2 ∉ stateKeys (st ++ [(l, (collectTop (gws l) fuel).state)]) := by
      intro l2 hl2
      have ha : l2 ∉ stateKeys st := hfresh l2 (List.mem_cons_of_mem l hl2)
      have hb : l2 ≠ l := by
        intro he
        exact absurd (he ▸ hl2) (List.nodup_cons.mp hnd).1
      have hk : stateKeys (st ++ [(l, (collectTop (gws l) fuel).state)]) =
          stateKeys st ++ [l] := by
        simp [stateKeys]
      rw [hk]
      simp only [List.mem_append, List.mem_singleton]
      rintro (hin | heq)
      · exact ha hin
      · exact hb heq
    rw [ih (st ++ [(l, (collectTop (gws l) fuel).state)])
      (List.Nodup.of_cons hnd) hfr2 (fun l2 hl2 => hret l2 (List.mem_cons_of_mem l hl2))]
    simp

/-- C4: per-organization failures are contained.  Under the hypotheses that
the organization list has no duplicate logins and every traversal returns
normally (which non-classified Gateway errors and empty repository results
always do, per the last two conjuncts), the loop reaches every
organization, stores for each exactly the accumulator its own traversal
left behind, and the run always proceeds to normalization and export of the
collected state.  The last two conjuncts show the two benign failure kinds
behave as claimed at any point of a traversal: the engine stops with the
accumulator unchanged (possibly null) and a normal return, never an
abort. -/
theorem c4_containment (gws : OrgLogin → Gateway) (fuel : Nat) (orgs : List OrgLogin)
    (hnd : orgs.Nodup)
    (hret : ∀ l ∈ orgs, (collectTop (gws l) fuel).exit = .returned) :
    runOrgs gws fuel orgs [] =
      (orgs.map (fun l => (l, (collectTop (gws l) fuel).state)), .normal) ∧
    startCollection gws fuel orgs =
      some (endCollection none []
        (orgs.map (fun l => (l, (collectTop (gws l) fuel).state)))) ∧
    (∀ (gw : Gateway) (st : Option OrganizationData) (c r : Cursor)
        (e : GatewayError) (f : Nat),
      gw c r = .err e → e.message ≠ ERROR_MESSAGE_ARCHIVED_REPO →
      collectData gw (f + 1) st c r = ⟨st, .returned, [(c, r)]⟩) ∧
    (∀ (gw : Gateway) (st : Option OrganizationData) (c r : Cursor)
        (d : OrganizationData) (f : Nat),
      gw c r = .ok d → d.repositories.nodes = [] →
      collectData gw (f + 1) st c r = ⟨st, .returned, [(c, r)]⟩) := by
  have hrun := runOrgs_complete gws fuel orgs [] hnd (by simp [stateKeys]) hret
  refine ⟨by simpa using hrun, ?_, ?_, ?_⟩
  · unfold startCollection
    rw [hrun]
    simp
  · intro gw st c r e f hgw hm
    simp [collectData, requestOrganizationData, hgw, hm]
  · intro gw st c r d f hgw hn
    simp [collectData, requestOrganizationData, hgw, hn]

/-- Gateway that always fails with an unclassified error. -/
def failingGw : Gateway := fun _ _ => .err ⟨"HttpError: Bad credentials", none⟩

/-- Gateway family for the containment witness: acme succeeds, every other
login fails with the unclassified error. -/
def mixedGws : OrgLogin → Gateway := fun l =>
  if l = some "acme" then acmeGw else failingGw

/-- Organization list for the containment witness. -/
def mixedOrgs : List OrgLogin := [some "acme", some "failing"]

/-- Witness for c4_containment: with acme succeeding and a second
organization failing on an unclassified error, the loop still visits both,
keeps the acme accumulator, stores null for the failing organization, and
finishes normally. -/
theorem c4_containment_witness :
    runOrgs mixedGws 10 mixedOrgs [] =
      (mixedOrgs.map (fun l => (l, (collectTop (mixedGws l) 10).state)), .normal) :=
  (c4_containment mixedGws 10 mixedOrgs (by decide) (by decide)).1


/-- Accumulator entry for r1 after the loop scenario records its cursor:
duplicated first page, priorRepositoryCursor some 1. -/
def r1first : RepositoryNode := ⟨"r1", ⟨[aliceE, aliceE], ⟨false, some 1⟩⟩, some 1⟩
/-- Accumulator entry for r2 as appended from its first collaborator page. -/
def r2blk : RepositoryNode := ⟨"r2", ⟨[carolE], ⟨true, some 1⟩⟩, none⟩
/-- Accumulator entry for r1 as re-appended from an empty collaborator
page, before its previousCursor is set. -/
def r1mid : RepositoryNode := ⟨"r1", ⟨[], ⟨false, some 2⟩⟩, none⟩
/-- The same entry after the following append sets its previousCursor. -/
def r1blk : RepositoryNode := ⟨"r1", ⟨[], ⟨false, some 2⟩⟩, some 1⟩

/-- Block of entries the engine appends on every cycle of the loop. -/
def loopBlocks : Nat → List RepositoryNode
  | 0 => []
  | n + 1 => loopBlocks n ++ [r2blk, r1blk]

/-- Accumulator entering a call with collaborator cursor some 1 and
repository cursor none, after n full cycles. -/
def stateA (n : Nat) : OrganizationData :=
  ⟨⟨(r1first :: loopBlocks n) ++ [r2blk], ⟨true, some 1⟩⟩⟩

/-- Accumulator entering a call with collaborator cursor none and
repository cursor some 1, inside cycle n. -/
def stateMid (n : Nat) : OrganizationData :=
  ⟨⟨(r1first :: loopBlocks n) ++ [r2blk, r1mid], ⟨true, some 1⟩⟩⟩

/-- Accumulator after the first call of the loop scenario: the first page
of r1 merged into itself. -/
def st1 : OrganizationData :=
  ⟨⟨[⟨"r1", ⟨[aliceE, aliceE], ⟨false, some 1⟩⟩, none⟩], ⟨true, some 1⟩⟩⟩

/-- Response of the loop Gateway to the call (collab some 1, repo none):
repository r1 again, with an exhausted collaborator page. -/
theorem loopGw_A : loopGw (some 1) none = .ok ⟨⟨[r1mid], ⟨true, some 1⟩⟩⟩ := rfl

/-- Response of the loop Gateway to the call (collab none, repo some 1):
repository r2 with its first collaborator page, which has a next page. -/
theorem loopGw_B : loopGw none (some 1) = .ok ⟨⟨[r2blk], ⟨false, some 2⟩⟩⟩ := rfl

/-- Length of n appended cycle blocks. -/
theorem loopBlocks_length (n : Nat) : (loopBlocks n).length = 2 * n := by
  induction n with
  | zero => rfl
  | succ n ih => simp [loopBlocks, ih]; omega

/-- Last element of a list extended by two elements. -/
theorem getLast?_concat2 {α : Type} (l : List α) (b c : α) :
    (l ++ [b, c]).getLast? = some c := by
  have h : l ++ [b, c] = (l ++ [b]) ++ [c] := by simp
  rw [h, List.getLast?_concat]

/-- Dropping the last of a list extended by two elements. -/
theorem dropLast_concat2 {α : Type} (l : List α) (b c : α) :
    (l ++ [b, c]).dropLast = l ++ [b] := by
  have h : l ++ [b, c] = (l ++ [b]) ++ [c] := by simp
  rw [h, List.dropLast_concat]

/-- One engine step from a cycle state stateA n: the Gateway returns r1
with an empty collaborator page, the engine appends a fresh r1 entry and
recurses with collaborator cursor none and repository cursor some 1. -/
theorem loopStepA (f n : Nat) :
    collectData loopGw (f + 1) (some (stateA n)) (some 1) none =
      ⟨(collectData loopGw f (some (stateMid n)) none (some 1)).state,
       (collectData loopGw f (some (stateMid n)) none (some 1)).exit,
       (some 1, none) :: (collectData loopGw f (some (stateMid n)) none (some 1)).calls⟩ := by
  have hreq := requestOrganizationData_ok loopGw f (some 1) none ⟨⟨[r1mid], ⟨true, some 1⟩⟩⟩ loopGw_A
  simp only [collectData, hreq]
  simp only [Option.getD_some, stateA]
  rw [List.getLast?_concat]
  simp only [r1mid, r2blk]
  simp only [List.dropLast_concat]
  simp [stateMid, r1mid, r2blk]

/-- One engine step from a mid-cycle state stateMid n: the Gateway returns
the first collaborator page of r2 again, the engine appends a fresh r2
entry, reads the previousCursor none planted one step earlier, and recurses
with collaborator cursor some 1 and repository cursor none, completing
cycle n + 1. -/
theorem loopStepB (f n : Nat) :
    collectData loopGw (f + 1) (some (stateMid n)) none (some 1) =
      ⟨(collectData loopGw f (some (stateA (n + 1))) (some 1) none).state,
       (collectData loopGw f (some (stateA (n + 1))) (some 1) none).exit,
       (none, some 1) :: (collectData loopGw f (some (stateA (n + 1))) (some 1) none).calls⟩ := by
  have hreq := requestOrganizationData_ok loopGw f none (some 1) ⟨⟨[r2blk], ⟨false, some 2⟩⟩⟩ loopGw_B
  simp only [collectData, hreq]
  simp only [Option.getD_some, stateMid]
  rw [getLast?_concat2]
  simp only [dropLast_concat2]
  have hlen : ((r1first :: loopBlocks n) ++ [r2blk, r1mid]).length = 2 * n + 3 := by
    simp [loopBlocks_length]
  simp only [hlen]
  have hcond : (2 * n + 3 = 1) = False := eq_false (by omega)
  have hname : (r2blk.name = r1mid.name) = False := eq_false (by decide)
  have hnext : r2blk.collaborators.pageInfo.hasNextPage = true := rfl
  simp only [hcond, hname, hnext, if_true, if_false]
  have hidx : 2 * n + 3 - 2 = 2 * n + 1 := by omega
  simp only [hidx]
  have hget : (((r1first :: loopBlocks n) ++ [r2blk]) ++
      [{ name := r1mid.name, collaborators := r1mid.collaborators, previousCursor := some 1 },
       r2blk]).get? (2 * n + 1) = some r2blk := by
    rw [List.get?_append (by simp [loopBlocks_length])]
    rw [List.get?_append_right (by simp [loopBlocks_length])]
    simp [loopBlocks_length]
  simp only [hget]
  simp [stateA, loopBlocks, r1blk, r2blk, r1mid, r1first]

/-- From any cycle state, the traversal only ever exhausts its fuel: the
two step lemmas alternate forever. -/
theorem loopRuns (f : Nat) :
    (∀ n, (collectData loopGw f (some (stateA n)) (some 1) none).exit = .outOfFuel) ∧
    (∀ n, (collectData loopGw f (some (stateMid n)) none (some 1)).exit = .outOfFuel) := by
  induction f with
  | zero => exact ⟨fun _ => rfl, fun _ => rfl⟩
  | succ f ih =>
    refine ⟨fun n => ?_, fun n => ?_⟩
    · rw [loopStepA]
      exact ih.2 n
    · rw [loopStepB]
      exact ih.1 (n + 1)

/-- First call of the loop scenario: r1 merged into itself, then the
engine advances the repository cursor. -/
theorem loopEntry1 (f : Nat) :
    collectData loopGw (f + 1) none none none =
      ⟨(collectData loopGw f (some st1) none (some 1)).state,
       (collectData loopGw f (some st1) none (some 1)).exit,
       (none, none) :: (collectData loopGw f (some st1) none (some 1)).calls⟩ := by
  have hgw : loopGw none none =
      .ok ⟨⟨[⟨"r1", ⟨[aliceE], ⟨false, some 1⟩⟩, none⟩], ⟨true, some 1⟩⟩⟩ := rfl
  have hreq := requestOrganizationData_ok loopGw f none none _ hgw
  simp only [collectData, hreq]
  simp [st1]

/-- Second call of the loop scenario: r2 appended with a pending
collaborator page, and because the pre-append length was 1 the engine
recurses with repository cursor none, entering the cycle at stateA 0. -/
theorem loopEntry2 (f : Nat) :
    collectData loopGw (f + 1) (some st1) none (some 1) =
      ⟨(collectData loopGw f (some (stateA 0)) (some 1) none).state,
       (collectData loopGw f (some (stateA 0)) (some 1) none).exit,
       (none, some 1) :: (collectData loopGw f (some (stateA 0)) (some 1) none).calls⟩ := by
  have hreq := requestOrganizationData_ok loopGw f none (some 1) ⟨⟨[r2blk], ⟨false, some 2⟩⟩⟩ loopGw_B
  simp only [collectData, hreq]
  simp [st1, stateA, loopBlocks, r2blk, r1first]

/-- C7: the claim states that for a well-behaved Gateway (finite
collections, positional monotonically advancing cursors, truthful page
flags) the recursive traversal terminates and returns.  The code violates
this: over the well-behaved loop Gateway (r1 with one collaborator, r2
with two collaborators across two pages of size one) the wrong repository
cursor of the new-repository case makes the engine alternate forever
between the calls (collab some 1, repo none) and (collab none, repo some
1), appending duplicate repository entries on every cycle, so for every
fuel bound the embedded traversal exhausts its fuel and never returns. -/
theorem c7_nontermination :
    ∀ fuel : Nat, (collectData loopGw fuel none none none).exit = .outOfFuel := by
  intro fuel
  match fuel with
  | 0 => rfl
  | 1 => rfl
  | (f + 2) =>
    rw [loopEntry1 (f + 1)]
    show (collectData loopGw (f + 1) (some st1) none (some 1)).exit = .outOfFuel
    rw [loopEntry2 f]
    show (collectData loopGw f (some (stateA 0)) (some 1) none).exit = .outOfFuel
    exact (loopRuns f).1 0


end OrgAudit
